import Mathlib

/-!
Verification of the state-management layer of a translation front-end
(`src/streamlit_app.py`).  The external translation library is modelled as a
record of possibly-failing operations (`Except String _` stands for a Python
call that may raise); the per-session mutable state (`st.session_state`) is
passed explicitly.  Each definition is a direct transcription of the
corresponding Python function.
-/

namespace ArgosApp

/-- One outgoing translation edge of an installed language
(`translation.to_lang` in the source). -/
structure Translation where
  to_code : String
  to_name : String
deriving DecidableEq, Repr

/-- An installed language as reported by the external library
(`argostranslate.translate.get_installed_languages()` item).  Reading the
`translations_from` attribute is itself a library call that may raise, so it
is modelled as `Except`. -/
structure Language where
  code : String
  name : String
  translations_from : Except String (List Translation)
deriving Repr

/-- The external translation library, a black box of possibly-failing calls:
`get_installed_languages` enumerates installed capabilities, `translate`
performs one translation. -/
structure Library where
  get_installed_languages : Except String (List Language)
  translate : String → String → String → Except String String

/-- One entry of `st.session_state.installed_packages` (the `package_info`
dict built in `refresh_installed_packages`). -/
structure PackageInfo where
  from_code : String
  from_name : String
  to_code : String
  to_name : String
deriving DecidableEq, Repr

/-- The loop body of `refresh_installed_packages`: starting from the already
cleared-and-partially-rebuilt list `acc`, process the remaining languages,
appending one `PackageInfo` per translation edge.  A raise while reading a
language's edges aborts the loop, leaving the partial list. -/
def buildInstalled : List Language → List PackageInfo → List PackageInfo × Option String
  | [], acc => (acc, none)
  | lang :: rest, acc =>
    match lang.translations_from with
    | .error e => (acc, some e)
    | .ok translations =>
      buildInstalled rest
        (acc ++ translations.map fun t =>
          { from_code := lang.code, from_name := lang.name
            to_code := t.to_code, to_name := t.to_name })

/-- `refresh_installed_packages` (src/streamlit_app.py lines 129–146): query
the library for installed languages, clear `installed_packages` and rebuild
it edge by edge; any exception is caught and shown via `st.error`.  Returns
the new `installed_packages` list and the surfaced error, if any. -/
def refresh_installed_packages (lib : Library) (prev : List PackageInfo) :
    List PackageInfo × Option String :=
  match lib.get_installed_languages with
  | .error e => (prev, some ("Error refreshing installed packages: " ++ e))
  | .ok installed_languages =>
    match buildInstalled installed_languages [] with
    | (pkgs, none) => (pkgs, none)
    | (pkgs, some e) => (pkgs, some ("Error refreshing installed packages: " ++ e))

/-- The edges of a language when reading them succeeds (empty if the read
raises; only used to describe states where the read succeeded). -/
def langEdges (l : Language) : List Translation :=
  match l.translations_from with
  | .ok ts => ts
  | .error _ => []

/-- The flattened `(from_code, from_name, to_code, to_name)` records of a
list of languages, as `refresh_installed_packages` builds them. -/
def flattenEdges (langs : List Language) : List PackageInfo :=
  langs.flatMap fun l =>
    (langEdges l).map fun t =>
      { from_code := l.code, from_name := l.name
        to_code := t.to_code, to_name := t.to_name }

/-- Whether reading a language's edges succeeds. -/
def edgesOk (l : Language) : Bool :=
  match l.translations_from with
  | .ok _ => true
  | .error _ => false

lemma buildInstalled_acc (langs : List Language) (acc : List PackageInfo) :
    buildInstalled langs acc =
      (acc ++ (buildInstalled langs []).1, (buildInstalled langs []).2) := by
  induction langs generalizing acc with
  | nil => simp [buildInstalled]
  | cons lang rest ih =>
    cases h : lang.translations_from with
    | error e => simp [buildInstalled, h]
    | ok ts =>
      simp only [buildInstalled, h, List.nil_append]
      rw [ih (acc ++ List.map _ ts), ih (List.map _ ts)]
      simp

lemma buildInstalled_fst (langs : List Language) :
    (buildInstalled langs []).1 = flattenEdges (langs.takeWhile edgesOk) := by
  induction langs with
  | nil => simp [buildInstalled, flattenEdges]
  | cons lang rest ih =>
    cases h : lang.translations_from with
    | error e =>
      simp [buildInstalled, h, List.takeWhile, edgesOk, flattenEdges]
    | ok ts =>
      simp only [buildInstalled, h]
      rw [buildInstalled_acc]
      simp [List.takeWhile, edgesOk, h, flattenEdges, langEdges, ih]

lemma buildInstalled_snd (langs : List Language) :
    (buildInstalled langs []).2.isSome ↔ ∃ l ∈ langs, edgesOk l = false := by
  induction langs with
  | nil => simp [buildInstalled]
  | cons lang rest ih =>
    cases h : lang.translations_from with
    | error e =>
      simp [buildInstalled, h, edgesOk]
    | ok ts =>
      simp only [buildInstalled, h]
      rw [buildInstalled_acc]
      dsimp only
      rw [ih]
      constructor
      · rintro ⟨l, hl, he⟩
        exact ⟨l, List.mem_cons_of_mem _ hl, he⟩
      · rintro ⟨l, hl, he⟩
        rcases List.mem_cons.mp hl with rfl | hl
        · simp [edgesOk, h] at he
        · exact ⟨l, hl, he⟩

lemma refresh_ok (lib : Library) (prev : List PackageInfo) (langs : List Language)
    (h : lib.get_installed_languages = .ok langs) :
    (refresh_installed_packages lib prev).1 = (buildInstalled langs []).1 ∧
    ((refresh_installed_packages lib prev).2.isSome ↔ (buildInstalled langs []).2.isSome) := by
  simp only [refresh_installed_packages, h]
  rcases hb : buildInstalled langs [] with ⟨pkgs, err⟩
  cases err <;> simp

lemma takeWhile_all {α : Type} {p : α → Bool} {l : List α} (h : ∀ a ∈ l, p a = true) :
    l.takeWhile p = l := by
  induction l with
  | nil => rfl
  | cons a l ih =>
    rw [List.takeWhile_cons, h a (List.mem_cons_self a l)]
    simp [ih fun b hb => h b (List.mem_cons_of_mem a hb)]

/-- `get_available_language_pairs` (src/streamlit_app.py lines 188–192):
refresh the installed list first, then flatten it into
`(from_code, from_name, to_code, to_name)` tuples.  Returns the tuples, the
new `installed_packages` state and the surfaced error, if any. -/
def get_available_language_pairs (lib : Library) (prev : List PackageInfo) :
    List (String × String × String × String) × List PackageInfo × Option String :=
  let r := refresh_installed_packages lib prev
  (r.1.map fun pkg => (pkg.from_code, pkg.from_name, pkg.to_code, pkg.to_name), r.1, r.2)

/-- Python `str.isspace` characters relevant to `str.strip()` (ASCII range):
space, tab, newline, carriage return, vertical tab, form feed. -/
def isPySpace (c : Char) : Bool :=
  c = ' ' || c = '\t' || c = '\n' || c = '\r' || c = '\x0b' || c = '\x0c'

/-- Python `str.strip()`: remove leading and trailing whitespace. -/
def pyStrip (s : String) : String :=
  ⟨((s.data.dropWhile isPySpace).reverse.dropWhile isPySpace).reverse⟩

/-- `translate_text` (src/streamlit_app.py lines 179–186): delegate to the
library; on a raise, catch it, show `st.error` and return `""`.  Returns the
result string together with the surfaced error message, if any. -/
def translate_text (lib : Library) (text from_code to_code : String) :
    String × Option String :=
  match lib.translate text from_code to_code with
  | .ok translated_text => (translated_text, none)
  | .error e => ("", some ("Translation error: " ++ e))

/-- One entry of `st.session_state.translation_history` (the
`translation_record` dict built in `main`). -/
structure TranslationRecord where
  timestamp : String
  from_lang : String
  to_lang : String
  original : String
  translated : String
deriving DecidableEq, Repr

/-- The history update of `main` (src/streamlit_app.py lines 357–367):
`insert(0, record)` followed by truncation `[:10]`. -/
def record (r : TranslationRecord) (history : List TranslationRecord) :
    List TranslationRecord :=
  (r :: history).take 10

/-- A sequence of successful `record` operations applied in chronological
order. -/
def applyRecords (rs : List TranslationRecord) (history : List TranslationRecord) :
    List TranslationRecord :=
  rs.foldl (fun h r => record r h) history

/-- Observable outcome of one press of the Translate button: the history
afterwards, the calls made to the external library's translate operation,
and the error messages displayed. -/
structure HandlerResult where
  translation_history : List TranslationRecord
  libCalls : List (String × String × String)
  errors : List String
deriving DecidableEq, Repr

/-- The Translate-button handler of `main` (src/streamlit_app.py lines
346–373): if the stripped input is non-empty, call `translate_text`; a
truthy (non-empty) result is shown and recorded into the capped history; a
falsy (empty) result records nothing.  Otherwise show
"Please enter some text to translate." and call nothing. -/
def translate_handler (lib : Library)
    (timestamp from_name to_name input_text from_code to_code : String)
    (history : List TranslationRecord) : HandlerResult :=
  if pyStrip input_text ≠ "" then
    let r := translate_text lib input_text from_code to_code
    if r.1 ≠ "" then
      { translation_history :=
          record { timestamp := timestamp, from_lang := from_name, to_lang := to_name,
                   original := input_text, translated := r.1 } history
        libCalls := [(input_text, from_code, to_code)]
        errors := r.2.toList }
    else
      { translation_history := history
        libCalls := [(input_text, from_code, to_code)]
        errors := r.2.toList }
  else
    { translation_history := history
      libCalls := []
      errors := ["Please enter some text to translate."] }

/-- Python tuple comparison `(a, b) <= (c, d)` for pairs of strings:
lexicographic by first component, then second. -/
def tupLE (x y : String × String) : Bool :=
  decide (x.1 < y.1) || (decide (x.1 = y.1) && decide (x.2 ≤ y.2))

/-- The source-language options of `main` (src/streamlit_app.py line 293):
`sorted(list(set([(pair[0], pair[1]) for pair in available_pairs])))`. -/
def from_languages (available_pairs : List (String × String × String × String)) :
    List (String × String) :=
  ((available_pairs.map fun pair => (pair.1, pair.2.1)).dedup).mergeSort tupLE

/-- The target-language options of `main` (src/streamlit_app.py line 307):
`sorted([(pair[2], pair[3]) for pair in available_pairs if pair[0] == selected_from_code])`. -/
def to_languages (available_pairs : List (String × String × String × String))
    (selected_from_code : String) : List (String × String) :=
  ((available_pairs.filter fun pair => pair.1 == selected_from_code).map
      fun pair => (pair.2.2.1, pair.2.2.2)).mergeSort tupLE

/-- Outcome of the target-selection step of `main` (src/streamlit_app.py
lines 304–320): either a non-empty option list is offered, or the explicit
"No target languages available for the selected source language." error is
shown and the page returns early. -/
inductive TargetSelection where
  | selected (targets : List (String × String))
  | noTargetsError
deriving DecidableEq, Repr

/-- The target-selection step of `main` (src/streamlit_app.py lines
304–320). -/
def select_target (available_pairs : List (String × String × String × String))
    (selected_from_code : String) : TargetSelection :=
  let to_options := to_languages available_pairs selected_from_code
  if to_options.isEmpty then .noTargetsError else .selected to_options

lemma pyStrip_eq_empty {s : String} (h : ∀ c ∈ s.data, isPySpace c = true) :
    pyStrip s = "" := by
  have hd : s.data.dropWhile isPySpace = [] :=
    List.dropWhile_eq_nil_iff.mpr fun c hc => h c hc
  simp [pyStrip, hd]

lemma take_append_take {α : Type} (n : Nat) (l m : List α) :
    (l ++ m.take n).take n = (l ++ m).take n := by
  rw [List.take_append_eq_append_take, List.take_append_eq_append_take, List.take_take]
  have : min (n - l.length) n = n - l.length := Nat.min_eq_left (Nat.sub_le n l.length)
  rw [this]

lemma applyRecords_eq (rs : List TranslationRecord) (h : List TranslationRecord)
    (hh : h.take 10 = h) : applyRecords rs h = (rs.reverse ++ h).take 10 := by
  induction rs generalizing h with
  | nil => simpa [applyRecords] using hh.symm
  | cons r rs ih =>
    have hstep : applyRecords (r :: rs) h = applyRecords rs (record r h) := rfl
    have hrec : (record r h).take 10 = record r h := by
      simp [record, List.take_take]
    rw [hstep, ih (record r h) hrec]
    simp only [record]
    rw [take_append_take, List.reverse_cons, List.append_assoc]
    rfl

lemma tupLE_trans : ∀ a b c : String × String, tupLE a b → tupLE b c → tupLE a c := by
  intro a b c hab hbc
  simp only [tupLE, Bool.or_eq_true, Bool.and_eq_true, decide_eq_true_eq] at *
  rcases hab with h1 | ⟨h1, h2⟩
  · rcases hbc with h3 | ⟨h3, h4⟩
    · exact Or.inl (lt_trans h1 h3)
    · exact Or.inl (h3 ▸ h1)
  · rcases hbc with h3 | ⟨h3, h4⟩
    · exact Or.inl (h1 ▸ h3)
    · exact Or.inr ⟨h1.trans h3, le_trans h2 h4⟩

lemma tupLE_total : ∀ a b : String × String, tupLE a b || tupLE b a := by
  intro a b
  simp only [tupLE, Bool.or_eq_true, Bool.and_eq_true, decide_eq_true_eq]
  rcases lt_trichotomy a.1 b.1 with h | h | h
  · exact Or.inl (Or.inl h)
  · rcases le_total a.2 b.2 with h2 | h2
    · exact Or.inl (Or.inr ⟨h, h2⟩)
    · exact Or.inr (Or.inr ⟨h.symm, h2⟩)
  · exact Or.inr (Or.inl h)

lemma mem_to_languages (available_pairs : List (String × String × String × String))
    (selected_from_code : String) (t : String × String) :
    t ∈ to_languages available_pairs selected_from_code ↔
      ∃ pair ∈ available_pairs, pair.1 = selected_from_code ∧ pair.2.2 = t := by
  simp only [to_languages, List.mem_mergeSort, List.mem_map, List.mem_filter,
    beq_iff_eq]
  constructor
  · rintro ⟨pair, ⟨hp, hc⟩, rfl⟩
    exact ⟨pair, hp, hc, rfl⟩
  · rintro ⟨pair, hp, hc, rfl⟩
    exact ⟨pair, ⟨hp, hc⟩, rfl⟩

/-- A library state whose enumerate call succeeds but where reading the
first language's translation edges raises. -/
def exLibIterFail : Library :=
  { get_installed_languages :=
      .ok [{ code := "en", name := "English", translations_from := .error "attribute read failed" }]
    translate := fun _ _ _ => .error "unused" }

/-- A library state whose enumerate-installed-capabilities call raises. -/
def exLibEnumFail : Library :=
  { get_installed_languages := .error "index down"
    translate := fun _ _ _ => .error "unused" }

/-- A previously stored installed-pairs list with one entry. -/
def exPrevPairs : List PackageInfo :=
  [{ from_code := "en", from_name := "English", to_code := "es", to_name := "Spanish" }]

/-- C1: counterexample.  In a library state where the enumerate call
succeeds but reading the first language's edges raises, an error is
surfaced, yet the previously stored installed-pairs list is NOT left
untouched: the list was cleared at the start of the rebuild, so the stored
state after the failure is `[]`, not the previous one-entry list. -/
theorem C1_counterexample :
    (refresh_installed_packages exLibIterFail exPrevPairs).2.isSome = true ∧
    (refresh_installed_packages exLibIterFail exPrevPairs).1 ≠ exPrevPairs := by
  constructor
  · rfl
  · intro h
    simp [refresh_installed_packages, exLibIterFail, buildInstalled, exPrevPairs] at h

/-- C1 (amended): if the enumerate-installed-capabilities call itself
fails, the previously stored installed-pairs list is left untouched and a
human-readable error is surfaced; if enumeration succeeds, the stored list
is rebuilt from the languages processed before the first failing edge read
(so a mid-iteration failure replaces the previous content with a partial
list), and an error is surfaced exactly when some edge read failed.  No
exception propagates: the operation is total. -/
theorem C1_refresh_error_policy (lib : Library) (prev : List PackageInfo) :
    (∀ e, lib.get_installed_languages = .error e →
        refresh_installed_packages lib prev =
          (prev, some ("Error refreshing installed packages: " ++ e))) ∧
    (∀ langs, lib.get_installed_languages = .ok langs →
        (refresh_installed_packages lib prev).1 = flattenEdges (langs.takeWhile edgesOk) ∧
        ((refresh_installed_packages lib prev).2.isSome ↔ ∃ l ∈ langs, edgesOk l = false)) := by
  refine ⟨fun e he => ?_, fun langs hl => ?_⟩
  · simp [refresh_installed_packages, he]
  · obtain ⟨h1, h2⟩ := refresh_ok lib prev langs hl
    exact ⟨h1.trans (buildInstalled_fst langs), h2.trans (buildInstalled_snd langs)⟩

theorem C1_refresh_error_policy_witness :
    refresh_installed_packages exLibEnumFail exPrevPairs =
      (exPrevPairs, some ("Error refreshing installed packages: " ++ "index down")) :=
  (C1_refresh_error_policy exLibEnumFail exPrevPairs).1 "index down" rfl

/-- C5: whenever the library reports installed languages whose edge reads
all succeed, `get_available_language_pairs` forces a refresh — the stored
installed list becomes the freshly flattened edge set, independently of the
previous state — and returns exactly the flattened edges, in order, as
`(from_code, from_name, to_code, to_name)` tuples, with no error
surfaced. -/
theorem C5_available_pairs (lib : Library) (prev : List PackageInfo)
    (langs : List Language)
    (h1 : lib.get_installed_languages = .ok langs)
    (h2 : ∀ l ∈ langs, edgesOk l = true) :
    (get_available_language_pairs lib prev).1 =
      langs.flatMap (fun l => (langEdges l).map fun t => (l.code, l.name, t.to_code, t.to_name)) ∧
    (get_available_language_pairs lib prev).2.1 = flattenEdges langs ∧
    (get_available_language_pairs lib prev).2.2 = none := by
  have hfst : (refresh_installed_packages lib prev).1 = flattenEdges langs := by
    rw [(refresh_ok lib prev langs h1).1, buildInstalled_fst, takeWhile_all h2]
  have hiff := (refresh_ok lib prev langs h1).2.trans (buildInstalled_snd langs)
  have hsnd : (refresh_installed_packages lib prev).2 = none := by
    rcases ho : (refresh_installed_packages lib prev).2 with _ | e
    · rfl
    · exfalso
      rcases hiff.mp (by rw [ho]; rfl) with ⟨l, hl, hfalse⟩
      rw [h2 l hl] at hfalse
      simp at hfalse
  refine ⟨?_, hfst, hsnd⟩
  show (refresh_installed_packages lib prev).1.map _ = _
  rw [hfst]
  simp only [flattenEdges, List.map_flatMap, List.map_map]
  rfl

/-- A library state with one installed language `en` that can translate to
`es`, and a translate call that succeeds. -/
def exLangsOk : List Language :=
  [{ code := "en", name := "English",
     translations_from := .ok [{ to_code := "es", to_name := "Spanish" }] }]

/-- A healthy library: enumeration succeeds and translation succeeds. -/
def exLibOk : Library :=
  { get_installed_languages := .ok exLangsOk
    translate := fun _ _ _ => .ok "hola" }

/-- A library whose translate call raises. -/
def exLibTransFail : Library :=
  { get_installed_languages := .ok exLangsOk
    translate := fun _ _ _ => .error "model missing" }

theorem C5_available_pairs_witness :
    (get_available_language_pairs exLibOk exPrevPairs).1 =
      exLangsOk.flatMap (fun l => (langEdges l).map fun t => (l.code, l.name, t.to_code, t.to_name)) :=
  (C5_available_pairs exLibOk exPrevPairs exLangsOk rfl (by decide)).1

/-- C2: pressing Translate with an empty or whitespace-only input surfaces
the empty-input error, performs no library call, and leaves the history
untouched. -/
theorem C2_empty_input (lib : Library)
    (timestamp from_name to_name input_text from_code to_code : String)
    (history : List TranslationRecord)
    (hws : ∀ c ∈ input_text.data, isPySpace c = true) :
    translate_handler lib timestamp from_name to_name input_text from_code to_code history =
      { translation_history := history, libCalls := [],
        errors := ["Please enter some text to translate."] } := by
  have h := pyStrip_eq_empty hws
  simp [translate_handler, h]

theorem C2_empty_input_witness :
    translate_handler exLibOk "2026-10-12 00:00:00" "English" "Spanish" "   " "en" "es" [] =
      { translation_history := [], libCalls := [],
        errors := ["Please enter some text to translate."] } :=
  C2_empty_input exLibOk "2026-10-12 00:00:00" "English" "Spanish" "   " "en" "es" []
    (by decide)

/-- C3: after more than 10 chronological `record` operations, the history
has length exactly 10 and holds exactly the 10 most recently recorded
entries, most recent first, whatever the starting history was. -/
theorem C3_history_truncation (rs : List TranslationRecord)
    (h : List TranslationRecord) (hlen : 10 < rs.length) :
    applyRecords rs h = rs.reverse.take 10 ∧ (applyRecords rs h).length = 10 := by
  rcases rs with _ | ⟨r, rs⟩
  · simp at hlen
  · have hrec : (record r h).take 10 = record r h := by
      simp [record, List.take_take]
    have h1 : applyRecords (r :: rs) h = applyRecords rs (record r h) := rfl
    have h3 : applyRecords (r :: rs) h = ((r :: rs).reverse ++ h).take 10 := by
      rw [h1, applyRecords_eq rs (record r h) hrec]
      simp only [record]
      rw [take_append_take, List.reverse_cons, List.append_assoc]
      rfl
    simp only [List.length_cons] at hlen
    have hlen' : 10 ≤ (r :: rs).reverse.length := by
      simp only [List.length_reverse, List.length_cons]
      omega
    constructor
    · rw [h3, List.take_append_of_le_length hlen']
    · rw [h3, List.length_take]
      simp only [List.length_append, List.length_reverse, List.length_cons]
      omega

/-- Eleven concrete translation records. -/
def exRecords : List TranslationRecord :=
  (List.range 11).map fun i =>
    { timestamp := toString i, from_lang := "English", to_lang := "Spanish",
      original := "hello", translated := "hola" }

theorem C3_history_truncation_witness :
    applyRecords exRecords [] = exRecords.reverse.take 10 ∧
    (applyRecords exRecords []).length = 10 :=
  C3_history_truncation exRecords [] (by decide)

/-- C4: if the library's translation call fails, the Translate handler
leaves the history exactly as it was before the attempt. -/
theorem C4_failed_translation_no_record (lib : Library)
    (timestamp from_name to_name input_text from_code to_code : String)
    (history : List TranslationRecord) (e : String)
    (herr : lib.translate input_text from_code to_code = .error e) :
    (translate_handler lib timestamp from_name to_name input_text from_code
        to_code history).translation_history = history := by
  unfold translate_handler
  split
  · simp [translate_text, herr]
  · rfl

theorem C4_failed_translation_no_record_witness :
    (translate_handler exLibTransFail "2026-10-12 00:00:00" "English" "Spanish"
        "Hello" "en" "es" []).translation_history = [] :=
  C4_failed_translation_no_record exLibTransFail "2026-10-12 00:00:00" "English"
    "Spanish" "Hello" "en" "es" [] "model missing" rfl

/-- C6: the target options the UI offers are exactly the targets of the
installed pairs whose from_code equals the selected source; as a pure
function of the installed list and the selection, they are recomputed
whenever either changes. -/
theorem C6_target_options (available_pairs : List (String × String × String × String))
    (selected_from_code : String) (t : String × String) :
    t ∈ to_languages available_pairs selected_from_code ↔
      ∃ pair ∈ available_pairs, pair.1 = selected_from_code ∧ pair.2.2 = t :=
  mem_to_languages available_pairs selected_from_code t

/-- C7: target selection yields the explicit no-targets error exactly when
no installed pair has the selected source language as its from_code; it
never silently succeeds with an empty list or defaults to an arbitrary
pair. -/
theorem C7_no_targets_error (available_pairs : List (String × String × String × String))
    (selected_from_code : String) :
    select_target available_pairs selected_from_code = .noTargetsError ↔
      ∀ pair ∈ available_pairs, pair.1 ≠ selected_from_code := by
  have hkey : (to_languages available_pairs selected_from_code).isEmpty = true ↔
      ∀ pair ∈ available_pairs, pair.1 ≠ selected_from_code := by
    rw [List.isEmpty_iff, List.eq_nil_iff_forall_not_mem]
    constructor
    · intro h pair hp hc
      exact h _ ((mem_to_languages _ _ _).mpr ⟨pair, hp, hc, rfl⟩)
    · intro h t ht
      rcases (mem_to_languages _ _ t).mp ht with ⟨pair, hp, hc, _⟩
      exact h pair hp hc
  rw [← hkey]
  unfold select_target
  dsimp only
  split <;> simp_all

/-- C8: whenever the (stripped) input is non-empty, the text handed to the
library's translate call is the user's input exactly, character for
character — no trimming even with leading or trailing whitespace. -/
theorem C8_exact_text (lib : Library)
    (timestamp from_name to_name input_text from_code to_code : String)
    (history : List TranslationRecord) (hne : pyStrip input_text ≠ "") :
    (translate_handler lib timestamp from_name to_name input_text from_code
        to_code history).libCalls = [(input_text, from_code, to_code)] := by
  unfold translate_handler
  rw [if_pos hne]
  dsimp only
  split <;> rfl

theorem C8_exact_text_witness :
    (translate_handler exLibOk "2026-10-12 00:00:00" "English" "Spanish"
        "  hello " "en" "es" []).libCalls = [("  hello ", "en", "es")] :=
  C8_exact_text exLibOk "2026-10-12 00:00:00" "English" "Spanish" "  hello "
    "en" "es" [] (by decide)

/-- C9: on any library failure `translate_text` swallows the exception and
returns `""` — the very value returned when the library succeeds with an
empty result — so at the function's interface the two are
indistinguishable; and whenever the result is `""`, the handler adds no
record to the history. -/
theorem C9_failure_returns_empty (lib : Library)
    (timestamp from_name to_name input_text from_code to_code : String)
    (history : List TranslationRecord) :
    (∀ e, lib.translate input_text from_code to_code = .error e →
        (translate_text lib input_text from_code to_code).1 = "") ∧
    (lib.translate input_text from_code to_code = .ok "" →
        (translate_text lib input_text from_code to_code).1 = "") ∧
    ((translate_text lib input_text from_code to_code).1 = "" →
        (translate_handler lib timestamp from_name to_name input_text from_code
            to_code history).translation_history = history) := by
  refine ⟨fun e he => ?_, fun hok => ?_, fun hempty => ?_⟩
  · simp [translate_text, he]
  · simp [translate_text, hok]
  · unfold translate_handler
    split
    · simp [hempty]
    · rfl

theorem C9_failure_returns_empty_witness :
    (translate_text exLibTransFail "Hello" "en" "es").1 = "" :=
  (C9_failure_returns_empty exLibTransFail "2026-10-12 00:00:00" "English"
    "Spanish" "Hello" "en" "es" []).1 "model missing" rfl

/-- C10: the source-language options are the distinct
`(from_code, from_name)` pairs of the installed list: no duplicates, sorted
ascending in Python's tuple order, and containing exactly the sources that
occur in the list. -/
theorem C10_source_options (available_pairs : List (String × String × String × String)) :
    (from_languages available_pairs).Nodup ∧
    (from_languages available_pairs).Pairwise (fun x y => tupLE x y = true) ∧
    ∀ s : String × String, s ∈ from_languages available_pairs ↔
      ∃ pair ∈ available_pairs, (pair.1, pair.2.1) = s := by
  refine ⟨?_, ?_, ?_⟩
  · have hperm := List.mergeSort_perm
      ((available_pairs.map fun pair => (pair.1, pair.2.1)).dedup) tupLE
    exact hperm.nodup_iff.mpr (List.nodup_dedup _)
  · exact List.sorted_mergeSort tupLE_trans tupLE_total _
  · intro s
    simp only [from_languages, List.mem_mergeSort, List.mem_dedup, List.mem_map]

end ArgosApp
